import Mathlib

set_option linter.unusedSectionVars false
set_option linter.unusedVariables false

/-!
# Verification of the `SuperSet` extended-set library (src/index.js)

The library is a subclass of the native JavaScript `Set`.  A JS `Set`
iterates its elements in insertion order and holds no duplicates, so we
embed a set instance as the `List` of its elements in iteration order;
every set the library can actually build satisfies `List.Nodup`.

`new SuperSet(iterable)` (and the native `Set` constructor it inherits)
inserts the elements of the iterable one by one, each insertion being a no-op
when an equal element is already present; this is `fromIter` below, built
from the single-insertion semantics `addElem` of `Set.prototype.add`.

JS callbacks receive `(itm, itm, setObj)` (resp. `(acc, itm, itm, setObj)`
for `reduce`); the embedding passes the same argument lists.  The
`thisArg` context-binding parameter has no counterpart here and is
dropped.
-/

namespace SuperSet

variable {α : Type} {β : Type} [DecidableEq α] [DecidableEq β]

/-- `Set.prototype.add`: append the element unless an equal one is present;
insertion order of existing elements is kept. -/
def addElem (s : List α) (x : α) : List α :=
  if x ∈ s then s else s ++ [x]

/-- `new SuperSet(iterable)` / `new Set(iterable)`: start empty and `add`
each element of the iterable in order. -/
def fromIter (l : List α) : List α :=
  l.foldl addElem []

/-- `mapGen(setObj, transform)` (src/index.js:10-13): yield
`transform(itm, itm, setObj)` for each element. -/
def mapGen (s : List α) (f : α → α → List α → β) : List β :=
  s.map (fun x => f x x s)

/-- `filterGen(setObj, filter)` (src/index.js:23-28): yield the elements on
which the callback is truthy. -/
def filterGen (s : List α) (p : α → α → List α → Bool) : List α :=
  s.filter (fun x => p x x s)

/-- `subtractGen(set1, set2)` (src/index.js:36-41): yield the elements of
`set1` not contained in `set2` (per `set2.has`). -/
def subtractGen (a b : List α) : List α :=
  a.filter (fun x => decide (x ∉ b))

/-- `unionGen(set1, set2)` (src/index.js:49-52): yield all of `set1`, then
all of `set2`. -/
def unionGen (a b : List α) : List α :=
  a ++ b

/-- `xorGen(set1, set2)` (src/index.js:60-65): the union generator applied
to the two one-sided subtractions. -/
def xorGen (a b : List α) : List α :=
  unionGen (subtractGen a b) (subtractGen b a)

/-- `SuperSet.prototype.map` (src/index.js:79-81):
`new SuperSet(mapGen(this, func))`. -/
def map (s : List α) (f : α → α → List α → β) : List β :=
  fromIter (mapGen s f)

/-- `SuperSet.prototype.filter` (src/index.js:90-92):
`new SuperSet(filterGen(this, func))`. -/
def filter (s : List α) (p : α → α → List α → Bool) : List α :=
  fromIter (filterGen s p)

/-- `SuperSet.prototype.union` (src/index.js:101-103):
`new SuperSet(unionGen(this, otherSetObj))`. -/
def union (a b : List α) : List α :=
  fromIter (unionGen a b)

/-- The `for (const itm of this)` loop of `every` (src/index.js:113-121):
return `false` at the first element failing the check, `true` if the loop
finishes.  `orig` is the set `this` passed to the callback. -/
def everyLoop (orig : List α) (p : α → α → List α → Bool) : List α → Bool
  | [] => true
  | x :: xs => if p x x orig then everyLoop orig p xs else false

/-- `SuperSet.prototype.every` (src/index.js:113-121). -/
def every (s : List α) (p : α → α → List α → Bool) : Bool :=
  everyLoop s p s

/-- The loop of `some` (src/index.js:189-197): return `true` at the first
element passing the check, `false` if the loop finishes. -/
def someLoop (orig : List α) (p : α → α → List α → Bool) : List α → Bool
  | [] => false
  | x :: xs => if p x x orig then true else someLoop orig p xs

/-- `SuperSet.prototype.some` (src/index.js:189-197). -/
def some (s : List α) (p : α → α → List α → Bool) : Bool :=
  someLoop s p s

/-- `SuperSet.prototype.isSubsetOf` (src/index.js:206-208):
`this.every(otherSetObj.has, otherSetObj)` — the callback tests membership
in the other set. -/
def isSubsetOf (a b : List α) : Bool :=
  every a (fun x _ _ => decide (x ∈ b))

/-- `SuperSet.prototype.equals` (src/index.js:216-218):
`this.size === otherSetObj.size && this.isSubsetOf(otherSetObj)`. -/
def equals (a b : List α) : Bool :=
  decide (a.length = b.length) && isSubsetOf a b

/-- `SuperSet.prototype.intersect` (src/index.js:227-229):
`this.filter(otherSetObj.has, otherSetObj)`. -/
def intersect (a b : List α) : List α :=
  filter a (fun x _ _ => decide (x ∈ b))

/-- `SuperSet.prototype.subtract` (src/index.js:238-240):
`new SuperSet(subtractGen(this, otherSetObj))`. -/
def subtract (a b : List α) : List α :=
  fromIter (subtractGen a b)

/-- `SuperSet.prototype.xor` (src/index.js:262-264):
`new SuperSet(xorGen(this, otherSetObj))`. -/
def xor (a b : List α) : List α :=
  fromIter (xorGen a b)

/-- Result of `update` (src/index.js:248-253): the method mutates the
receiver and then executes `return this`, so the post-state of the receiver and
the returned object are one and the same; the structure records both so
the identity is statable. -/
structure UpdateResult (α : Type) where
  receiver : List α
  returned : List α
  deriving DecidableEq

/-- `SuperSet.prototype.update` (src/index.js:248-253): `this.add(itm)` for
each item of the iterable, then `return this`. -/
def update (s l : List α) : UpdateResult α :=
  let s2 := l.foldl addElem s
  ⟨s2, s2⟩

/-- The single error the library can raise: `reduce` on an empty set with
no initial value throws (src/index.js:169-170).  The error taxonomy of the spec
names it `InvalidOperation`; in the JS host it is a `TypeError` carrying
the message below. -/
inductive SetError where
  | invalidOperation : String → SetError
  deriving DecidableEq

/-- Whether the `initialValue` argument of `reduce` was passed at the call
site (`arguments.length === 2`) or omitted (`arguments.length === 1`); JS
distinguishes these even when the passed value is `undefined`. -/
inductive InitArg (σ : Type) where
  | omitted : InitArg σ
  | given : σ → InitArg σ
  deriving DecidableEq

/-- `SuperSet.prototype.reduce` (src/index.js:168-179).  The accumulator
is a JS value that may be `undefined`, embedded as `Option α` with `none`
for `undefined`.  With the argument omitted on an empty set the guard at
line 169 throws; with it omitted on a non-empty set `iterator.next().value`
— the first element — seeds the accumulator and the `for..of` loop runs
over the remaining elements; with the argument given, the loop runs over
every element starting from the given value. -/
def reduce (s : List α) (f : Option α → α → α → List α → Option α) :
    InitArg (Option α) → Except SetError (Option α)
  | .omitted =>
      match s with
      | [] => .error (.invalidOperation
          "An initial value is required when using an empty set.")
      | x :: xs => .ok (xs.foldl (fun acc itm => f acc itm itm s) (Option.some x))
  | .given v => .ok (s.foldl (fun acc itm => f acc itm itm s) v)

/-- Instrumented left fold: returns the result of the fold together with the
list of elements the callback was invoked on, in invocation order. -/
def foldlTrace (f : σ → α → σ) : σ → List α → σ × List α
  | init, [] => (init, [])
  | init, x :: xs =>
      let r := foldlTrace f (f init x) xs
      (r.1, x :: r.2)

/-! ## Heap model for instance identity

`map`, `filter`, `union`, `subtract`, `xor` and `intersect` all end in
`new SuperSet(...)`, allocating a fresh object.  To state freshness and
non-mutation of the operands we model a heap of set objects as a list of
element lists addressed by index; allocation appends a cell. -/

/-- A heap of set objects; a reference is an index into the list. -/
abbrev Heap (α : Type) := List (List α)

/-- Dereference: the contents of the set object at `r`. -/
def readRef (h : Heap α) (r : Nat) : List α :=
  h.getD r []

/-- `new SuperSet(contents)`: extend the heap with a fresh cell and return
its reference. -/
def alloc (h : Heap α) (v : List α) : Heap α × Nat :=
  (h ++ [v], h.length)

/-- `a.union(b)` acting on the heap. -/
def unionOp (h : Heap α) (a b : Nat) : Heap α × Nat :=
  alloc h (union (readRef h a) (readRef h b))

/-- `a.subtract(b)` acting on the heap. -/
def subtractOp (h : Heap α) (a b : Nat) : Heap α × Nat :=
  alloc h (subtract (readRef h a) (readRef h b))

/-- `a.xor(b)` acting on the heap. -/
def xorOp (h : Heap α) (a b : Nat) : Heap α × Nat :=
  alloc h (xor (readRef h a) (readRef h b))

/-- `a.intersect(b)` acting on the heap. -/
def intersectOp (h : Heap α) (a b : Nat) : Heap α × Nat :=
  alloc h (intersect (readRef h a) (readRef h b))

/-- `a.map(f)` acting on the heap (element-type-preserving transform). -/
def mapOp (h : Heap α) (a : Nat) (f : α → α → List α → α) : Heap α × Nat :=
  alloc h (map (readRef h a) f)

/-- `a.filter(p)` acting on the heap. -/
def filterOp (h : Heap α) (a : Nat) (p : α → α → List α → Bool) :
    Heap α × Nat :=
  alloc h (filter (readRef h a) p)

/-- The result of a heap operation is a fresh object, and the operand cells `a`
and `b` still hold exactly what they held before the call. -/
def FreshAndFrame (h : Heap α) (a b : Nat) (res : Heap α × Nat) : Prop :=
  res.2 ≠ a ∧ res.2 ≠ b
    ∧ readRef res.1 a = readRef h a ∧ readRef res.1 b = readRef h b

instance {h : Heap α} {a b : Nat} {res : Heap α × Nat} :
    Decidable (FreshAndFrame h a b res) := by
  unfold FreshAndFrame
  infer_instance

/-! ## Basic lemmas about the embedding -/

theorem mem_addElem {s : List α} {a x : α} :
    x ∈ addElem s a ↔ x ∈ s ∨ x = a := by
  unfold addElem
  by_cases h : a ∈ s
  · rw [if_pos h]
    constructor
    · exact Or.inl
    · rintro (hx | rfl)
      · exact hx
      · exact h
  · rw [if_neg h]
    simp

theorem mem_foldl_addElem {l : List α} :
    ∀ {s : List α} {x : α}, x ∈ l.foldl addElem s ↔ x ∈ s ∨ x ∈ l := by
  induction l with
  | nil => simp
  | cons a l ih =>
      intro s x
      simp only [List.foldl_cons, ih, mem_addElem, List.mem_cons]
      tauto

theorem mem_fromIter {l : List α} {x : α} : x ∈ fromIter l ↔ x ∈ l := by
  simp [fromIter, mem_foldl_addElem]

theorem foldl_addElem_of_nodup {b : List α} (hb : b.Nodup) :
    ∀ s : List α, b.foldl addElem s = s ++ b.filter (fun x => decide (x ∉ s)) := by
  induction b with
  | nil => simp
  | cons c cs ih =>
      intro s
      have hcs : cs.Nodup := hb.of_cons
      have hc : c ∉ cs := (List.nodup_cons.mp hb).1
      by_cases h : c ∈ s
      · simp [addElem, h, ih hcs]
      · rw [List.foldl_cons]
        have haddc : addElem s c = s ++ [c] := by simp [addElem, h]
        rw [haddc, ih hcs]
        have hfilter : cs.filter (fun x => decide (x ∉ s ++ [c]))
            = cs.filter (fun x => decide (x ∉ s)) := by
          apply List.filter_congr
          intro x hx
          have hxc : x ≠ c := fun hxc => hc (hxc ▸ hx)
          simp [List.mem_append, hxc]
        have hcons : (c :: cs).filter (fun x => decide (x ∉ s))
            = c :: cs.filter (fun x => decide (x ∉ s)) := by
          simp [List.filter_cons, h]
        rw [hfilter, hcons]
        simp

theorem fromIter_of_nodup {l : List α} (hl : l.Nodup) : fromIter l = l := by
  have h := foldl_addElem_of_nodup hl ([] : List α)
  simpa [fromIter, List.filter_eq_self] using h

theorem union_eq_append_filter {a b : List α} (ha : a.Nodup) (hb : b.Nodup) :
    union a b = a ++ b.filter (fun x => decide (x ∉ a)) := by
  unfold union unionGen fromIter
  rw [List.foldl_append]
  have h1 : a.foldl addElem [] = a := fromIter_of_nodup ha
  rw [h1, foldl_addElem_of_nodup hb a]

theorem nodup_union {a b : List α} (ha : a.Nodup) (hb : b.Nodup) :
    (union a b).Nodup := by
  rw [union_eq_append_filter ha hb]
  refine ha.append (hb.filter _) ?_
  intro x hxa hxf
  have := (List.mem_filter.mp hxf).2
  simp only [decide_eq_true_eq] at this
  exact this hxa

theorem mem_union {a b : List α} {x : α} :
    x ∈ union a b ↔ x ∈ a ∨ x ∈ b := by
  simp [union, unionGen, mem_fromIter]

theorem everyLoop_eq_true_iff {orig : List α} {p : α → α → List α → Bool} :
    ∀ {l : List α}, everyLoop orig p l = true ↔ ∀ x ∈ l, p x x orig = true := by
  intro l
  induction l with
  | nil => simp [everyLoop]
  | cons a l ih =>
      by_cases h : p a a orig = true <;> simp [everyLoop, h, ih]

theorem someLoop_eq_true_iff {orig : List α} {p : α → α → List α → Bool} :
    ∀ {l : List α}, someLoop orig p l = true ↔ ∃ x ∈ l, p x x orig = true := by
  intro l
  induction l with
  | nil => simp [someLoop]
  | cons a l ih =>
      by_cases h : p a a orig = true <;> simp [someLoop, h, ih]

theorem isSubsetOf_iff {a b : List α} : isSubsetOf a b = true ↔ a ⊆ b := by
  unfold isSubsetOf every
  rw [everyLoop_eq_true_iff]
  simp [List.subset_def]

theorem equals_iff {a b : List α} :
    equals a b = true ↔ a.length = b.length ∧ a ⊆ b := by
  simp [equals, isSubsetOf_iff]

theorem equals_of_perm {a b : List α} (h : a.Perm b) : equals a b = true :=
  equals_iff.mpr ⟨h.length_eq, h.subset⟩

theorem foldlTrace_fst {σ : Type} (f : σ → α → σ) :
    ∀ (l : List α) (init : σ), (foldlTrace f init l).1 = l.foldl f init := by
  intro l
  induction l with
  | nil => intro init; rfl
  | cons a l ih => intro init; simp [foldlTrace, ih]

theorem foldlTrace_snd {σ : Type} (f : σ → α → σ) :
    ∀ (l : List α) (init : σ), (foldlTrace f init l).2 = l := by
  intro l
  induction l with
  | nil => intro init; rfl
  | cons a l ih => intro init; simp [foldlTrace, ih]

theorem nodup_addElem {s : List α} (hs : s.Nodup) (x : α) :
    (addElem s x).Nodup := by
  unfold addElem
  by_cases h : x ∈ s
  · rwa [if_pos h]
  · rw [if_neg h]
    exact hs.append (List.nodup_singleton x) (by simpa [List.disjoint_singleton])

theorem nodup_foldl_addElem {l : List α} :
    ∀ {s : List α}, s.Nodup → (l.foldl addElem s).Nodup := by
  induction l with
  | nil => intro s hs; exact hs
  | cons a l ih =>
      intro s hs
      exact ih (nodup_addElem hs a)

theorem readRef_alloc {h : Heap α} {v : List α} {i : Nat} (hi : i < h.length) :
    readRef (alloc h v).1 i = readRef h i := by
  simp only [alloc, readRef]
  rw [List.getD_eq_getElem?_getD, List.getD_eq_getElem?_getD,
    List.getElem?_append_left hi]

theorem alloc_ref_ne {h : Heap α} {v : List α} {i : Nat} (hi : i < h.length) :
    (alloc h v).2 ≠ i := by
  simp only [alloc]
  omega

/-! ## Claims -/

/-- C1: on an empty set, `reduce` with the initial value omitted fails with
the invalid-operation error raised by the library, while `reduce` with any supplied
initial value `v` — even a falsy one — succeeds and returns `v`; in
particular a supplied initial value `some 0` on an empty set of numbers
returns `some 0`. -/
theorem claim_C1 (f : Option α → α → α → List α → Option α) (v : Option α) :
    reduce ([] : List α) f .omitted
        = .error (.invalidOperation
            "An initial value is required when using an empty set.")
      ∧ reduce ([] : List α) f (.given v) = .ok v
      ∧ reduce ([] : List ℕ) (fun acc _ _ _ => acc) (.given (Option.some 0))
          = .ok (Option.some 0) :=
  ⟨rfl, rfl, rfl⟩

/-- C2: on a non-empty set `x :: xs`, `reduce f` with the argument omitted
seeds the accumulator with the first element `x` and invokes the callback
exactly on the remaining elements `xs` in iteration order, while
`reduce f undefined` (explicitly passed `undefined`, i.e. `.given none`)
seeds the accumulator with `undefined` and invokes the callback exactly on
all elements `x :: xs` in iteration order.  The invocation list is read
off the instrumented fold `foldlTrace`. -/
theorem claim_C2 (x : α) (xs : List α) (f : Option α → α → α → List α → Option α) :
    reduce (x :: xs) f .omitted
        = .ok (foldlTrace (fun acc itm => f acc itm itm (x :: xs)) (Option.some x) xs).1
      ∧ (foldlTrace (fun acc itm => f acc itm itm (x :: xs)) (Option.some x) xs).2 = xs
      ∧ reduce (x :: xs) f (.given Option.none)
        = .ok (foldlTrace (fun acc itm => f acc itm itm (x :: xs)) Option.none (x :: xs)).1
      ∧ (foldlTrace (fun acc itm => f acc itm itm (x :: xs)) Option.none (x :: xs)).2
          = x :: xs := by
  refine ⟨?_, foldlTrace_snd _ _ _, ?_, foldlTrace_snd _ _ _⟩ <;>
    simp [reduce, foldlTrace_fst]

/-- C3: for duplicate-free element lists (every set the library builds),
`equals` agrees with mutual `isSubsetOf`, and with the size-plus-subset
formulation it is implemented by. -/
theorem claim_C3 (a b : List α) (ha : a.Nodup) (hb : b.Nodup) :
    (equals a b = true ↔ (isSubsetOf a b = true ∧ isSubsetOf b a = true))
      ∧ (equals a b = true ↔ (a.length = b.length ∧ isSubsetOf a b = true)) := by
  constructor
  · constructor
    · intro h
      obtain ⟨hlen, hsub⟩ := equals_iff.mp h
      refine ⟨isSubsetOf_iff.mpr hsub, isSubsetOf_iff.mpr ?_⟩
      have hsp := List.subperm_of_subset ha hsub
      have hperm := hsp.perm_of_length_le (le_of_eq hlen.symm)
      exact hperm.symm.subset
    · rintro ⟨h1, h2⟩
      exact equals_of_perm
        ((List.subperm_of_subset ha (isSubsetOf_iff.mp h1)).antisymm
          (List.subperm_of_subset hb (isSubsetOf_iff.mp h2)))
  · rw [equals_iff, isSubsetOf_iff]

/-- Witness for C3 at `A = {1,2}`, `B = {2,1}`. -/
theorem claim_C3_witness :
    (equals ([1, 2] : List ℕ) [2, 1] = true
        ↔ (isSubsetOf ([1, 2] : List ℕ) [2, 1] = true
            ∧ isSubsetOf ([2, 1] : List ℕ) [1, 2] = true))
      ∧ (equals ([1, 2] : List ℕ) [2, 1] = true
        ↔ (([1, 2] : List ℕ).length = ([2, 1] : List ℕ).length
            ∧ isSubsetOf ([1, 2] : List ℕ) [2, 1] = true)) :=
  claim_C3 [1, 2] [2, 1] (by decide) (by decide)

/-- C4: `A.subtract(B)` and `A.intersect(B)` partition `A`: their union is
`equals` to `A`. -/
theorem claim_C4 (a b : List α) (ha : a.Nodup) (hb : b.Nodup) :
    equals (union (subtract a b) (intersect a b)) a = true := by
  have hsub : subtract a b = a.filter (fun x => decide (x ∉ b)) :=
    fromIter_of_nodup (ha.filter _)
  have hint : intersect a b = a.filter (fun x => decide (x ∈ b)) :=
    fromIter_of_nodup (ha.filter _)
  have hXn : (a.filter (fun x => decide (x ∉ b))).Nodup := ha.filter _
  have hYn : (a.filter (fun x => decide (x ∈ b))).Nodup := ha.filter _
  have hYfilter : (a.filter (fun x => decide (x ∈ b))).filter
      (fun y => decide (y ∉ a.filter (fun x => decide (x ∉ b))))
      = a.filter (fun x => decide (x ∈ b)) := by
    rw [List.filter_eq_self]
    intro y hy
    have hyb : y ∈ b := by simpa using (List.mem_filter.mp hy).2
    simp only [decide_eq_true_eq]
    intro hyX
    have : y ∉ b := by simpa using (List.mem_filter.mp hyX).2
    exact this hyb
  have hunion : union (a.filter (fun x => decide (x ∉ b)))
      (a.filter (fun x => decide (x ∈ b)))
      = a.filter (fun x => decide (x ∉ b)) ++ a.filter (fun x => decide (x ∈ b)) := by
    rw [union_eq_append_filter hXn hYn, hYfilter]
  have hperm : (a.filter (fun x => decide (x ∉ b))
      ++ a.filter (fun x => decide (x ∈ b))).Perm a := by
    have h := List.filter_append_perm (fun x => decide (x ∉ b)) a
    have hq : a.filter (fun x => !decide (x ∉ b))
        = a.filter (fun x => decide (x ∈ b)) := by
      apply List.filter_congr
      intro x _
      simp [decide_not]
    rw [hq] at h
    exact h
  rw [hsub, hint, hunion]
  exact equals_of_perm hperm

/-- Witness for C4 at `A = {1,2,3}`, `B = {2,4}`. -/
theorem claim_C4_witness :
    equals (union (subtract ([1, 2, 3] : List ℕ) [2, 4])
      (intersect ([1, 2, 3] : List ℕ) [2, 4])) [1, 2, 3] = true :=
  claim_C4 [1, 2, 3] [2, 4] (by decide) (by decide)

/-- C5: `xor` coincides (up to `equals`) with the compositional
`A.subtract(B).union(B.subtract(A))`, and its members are exactly the
elements lying in precisely one of the two sets. -/
theorem claim_C5 (a b : List α) (ha : a.Nodup) (hb : b.Nodup) :
    equals (xor a b) (union (subtract a b) (subtract b a)) = true
      ∧ ∀ x, x ∈ xor a b ↔ ((x ∈ a ∧ x ∉ b) ∨ (x ∈ b ∧ x ∉ a)) := by
  constructor
  · have h1 : subtract a b = subtractGen a b := fromIter_of_nodup (ha.filter _)
    have h2 : subtract b a = subtractGen b a := fromIter_of_nodup (hb.filter _)
    have hcomp : union (subtract a b) (subtract b a)
        = fromIter (subtractGen a b ++ subtractGen b a) := by
      rw [h1, h2]; rfl
    rw [hcomp]
    exact equals_of_perm (List.Perm.refl _)
  · intro x
    simp only [xor, xorGen, unionGen, subtractGen, mem_fromIter,
      List.mem_append, List.mem_filter, decide_eq_true_eq]

/-- Witness for C5 at `A = {1,2}`, `B = {2,3}`. -/
theorem claim_C5_witness :
    equals (xor ([1, 2] : List ℕ) [2, 3])
        (union (subtract ([1, 2] : List ℕ) [2, 3]) (subtract ([2, 3] : List ℕ) [1, 2]))
        = true
      ∧ ∀ x, x ∈ xor ([1, 2] : List ℕ) [2, 3]
          ↔ ((x ∈ ([1, 2] : List ℕ) ∧ x ∉ ([2, 3] : List ℕ))
              ∨ (x ∈ ([2, 3] : List ℕ) ∧ x ∉ ([1, 2] : List ℕ))) :=
  claim_C5 [1, 2] [2, 3] (by decide) (by decide)

/-- C6: the union of two sets is at most as large as the sizes combined,
with equality exactly when the sets are disjoint. -/
theorem claim_C6 (a b : List α) (ha : a.Nodup) (hb : b.Nodup) :
    (union a b).length ≤ a.length + b.length
      ∧ ((union a b).length = a.length + b.length ↔ a.Disjoint b) := by
  rw [union_eq_append_filter ha hb, List.length_append]
  constructor
  · exact Nat.add_le_add_left (List.length_filter_le _ _) _
  · rw [Nat.add_left_cancel_iff]
    constructor
    · intro hlen
      have heq : b.filter (fun x => decide (x ∉ a)) = b :=
        (List.filter_sublist b).eq_of_length hlen
      rw [List.filter_eq_self] at heq
      rw [List.disjoint_right]
      intro x hxb
      simpa using heq x hxb
    · intro hdisj
      have heq : b.filter (fun x => decide (x ∉ a)) = b := by
        rw [List.filter_eq_self]
        intro x hxb
        simpa using List.disjoint_right.mp hdisj hxb
      rw [heq]

/-- Witness for C6 at the disjoint pair `A = {1,2}`, `B = {3}`. -/
theorem claim_C6_witness :
    (union ([1, 2] : List ℕ) [3]).length ≤ ([1, 2] : List ℕ).length + ([3] : List ℕ).length
      ∧ ((union ([1, 2] : List ℕ) [3]).length
            = ([1, 2] : List ℕ).length + ([3] : List ℕ).length
          ↔ ([1, 2] : List ℕ).Disjoint [3]) :=
  claim_C6 [1, 2] [3] (by decide) (by decide)

/-- C7: `every` is truthy exactly when the predicate holds on all elements
(vacuously on the empty set), and `some` exactly when it holds on at least
one element (never on the empty set). -/
theorem claim_C7 (s : List α) (p : α → α → List α → Bool) :
    (every s p = true ↔ ∀ x ∈ s, p x x s = true)
      ∧ (some s p = true ↔ ∃ x ∈ s, p x x s = true)
      ∧ every ([] : List α) p = true
      ∧ some ([] : List α) p = false :=
  ⟨everyLoop_eq_true_iff, someLoop_eq_true_iff, rfl, rfl⟩

/-- C8: `update` returns the very object it mutated (its returned value
is the post-state of the receiver), the post-state holds exactly the union of
the old elements and the elements of the iterable with duplicates collapsed,
and the concrete chained example from the spec evaluates to `true`. -/
theorem claim_C8 (s l : List α) (hs : s.Nodup) :
    (update s l).returned = (update s l).receiver
      ∧ (∀ x, x ∈ (update s l).receiver ↔ x ∈ s ∨ x ∈ l)
      ∧ ((update s l).receiver).Nodup
      ∧ equals (update (fromIter [1, 2]) [2, 3]).returned (fromIter ([1, 2, 3] : List ℕ))
          = true := by
  refine ⟨rfl, ?_, nodup_foldl_addElem hs, by decide⟩
  intro x
  exact mem_foldl_addElem

/-- Witness for C8 at receiver `{1,2}` and iterable `[2,3]`. -/
theorem claim_C8_witness :
    (update ([1, 2] : List ℕ) [2, 3]).returned = (update ([1, 2] : List ℕ) [2, 3]).receiver
      ∧ (∀ x, x ∈ (update ([1, 2] : List ℕ) [2, 3]).receiver
          ↔ x ∈ ([1, 2] : List ℕ) ∨ x ∈ ([2, 3] : List ℕ))
      ∧ ((update ([1, 2] : List ℕ) [2, 3]).receiver).Nodup
      ∧ equals (update (fromIter [1, 2]) [2, 3]).returned (fromIter ([1, 2, 3] : List ℕ))
          = true :=
  claim_C8 [1, 2] [2, 3] (by decide)

/-- C9: each derived-set operation (`map`, `filter`, `union`, `subtract`,
`xor`, `intersect`) allocates a fresh object distinct from both operand
references, and the contents of the operands are unchanged by the call. -/
theorem claim_C9 (h : Heap α) (a b : Nat) (f : α → α → List α → α)
    (p : α → α → List α → Bool) (ha : a < h.length) (hb : b < h.length) :
    FreshAndFrame h a b (unionOp h a b)
      ∧ FreshAndFrame h a b (subtractOp h a b)
      ∧ FreshAndFrame h a b (xorOp h a b)
      ∧ FreshAndFrame h a b (intersectOp h a b)
      ∧ FreshAndFrame h a b (mapOp h a f)
      ∧ FreshAndFrame h a b (filterOp h a p) :=
  ⟨⟨alloc_ref_ne ha, alloc_ref_ne hb, readRef_alloc ha, readRef_alloc hb⟩,
    ⟨alloc_ref_ne ha, alloc_ref_ne hb, readRef_alloc ha, readRef_alloc hb⟩,
    ⟨alloc_ref_ne ha, alloc_ref_ne hb, readRef_alloc ha, readRef_alloc hb⟩,
    ⟨alloc_ref_ne ha, alloc_ref_ne hb, readRef_alloc ha, readRef_alloc hb⟩,
    ⟨alloc_ref_ne ha, alloc_ref_ne hb, readRef_alloc ha, readRef_alloc hb⟩,
    ⟨alloc_ref_ne ha, alloc_ref_ne hb, readRef_alloc ha, readRef_alloc hb⟩⟩

/-- Witness for C9 on the two-object heap `[{1,2}, {2,3}]`. -/
theorem claim_C9_witness :
    FreshAndFrame ([[1, 2], [2, 3]] : Heap ℕ) 0 1
        (unionOp ([[1, 2], [2, 3]] : Heap ℕ) 0 1)
      ∧ FreshAndFrame ([[1, 2], [2, 3]] : Heap ℕ) 0 1
          (subtractOp ([[1, 2], [2, 3]] : Heap ℕ) 0 1)
      ∧ FreshAndFrame ([[1, 2], [2, 3]] : Heap ℕ) 0 1
          (xorOp ([[1, 2], [2, 3]] : Heap ℕ) 0 1)
      ∧ FreshAndFrame ([[1, 2], [2, 3]] : Heap ℕ) 0 1
          (intersectOp ([[1, 2], [2, 3]] : Heap ℕ) 0 1)
      ∧ FreshAndFrame ([[1, 2], [2, 3]] : Heap ℕ) 0 1
          (mapOp ([[1, 2], [2, 3]] : Heap ℕ) 0 (fun x _ _ => x + 1))
      ∧ FreshAndFrame ([[1, 2], [2, 3]] : Heap ℕ) 0 1
          (filterOp ([[1, 2], [2, 3]] : Heap ℕ) 0 (fun x _ _ => decide (1 < x))) :=
  claim_C9 [[1, 2], [2, 3]] 0 1 (fun x _ _ => x + 1) (fun x _ _ => decide (1 < x))
    (by decide) (by decide)

/-- C10: union is commutative up to `equals`, although the two result
lists enumerate the common elements in different orders. -/
theorem claim_C10 (a b : List α) (ha : a.Nodup) (hb : b.Nodup) :
    equals (union a b) (union b a) = true := by
  apply equals_of_perm
  rw [List.perm_ext_iff_of_nodup (nodup_union ha hb) (nodup_union hb ha)]
  intro x
  rw [mem_union, mem_union]
  tauto

/-- Witness for C10 at `A = {1,2}`, `B = {2,3}`. -/
theorem claim_C10_witness :
    equals (union ([1, 2] : List ℕ) [2, 3]) (union ([2, 3] : List ℕ) [1, 2]) = true :=
  claim_C10 [1, 2] [2, 3] (by decide) (by decide)

end SuperSet
